import Mathlib

/-!
Shallow embedding of the core of the Gargantua chess engine
(src/bitboard.h, src/bitboard.cpp, src/movgen.h, src/search.h,
src/search.cpp).  Bitboards are 64-bit words modelled as `Nat` with
explicit masking by `2^64 - 1` where C++ overflow/wraparound matters.
Global mutable state (the twelve piece bitboards, the three
occupancies, side to move, en-passant square, castling rights and the
`st` state pointer) is modelled as an explicit `Position` record that
the operations transform.

The repository's `definitions.h` and `position.h` are not among the
given sources; the primitives they provide (`popBit`, the piece and
square enumerations, the `StateInfo` structure, the slider attack
getters) are modelled from the specification and are marked as such in
their doc comments.  Everything else is a direct transcription of the
C++ sources.
-/

namespace Gargantua

/-- Side enumeration: white = 0 (spec 3.2). -/
def White : Nat := 0

/-- Side enumeration: black = 1 (spec 3.2). -/
def Black : Nat := 1

/-- Side enumeration: "both" = 2 indexes the combined occupancy (spec 3.2). -/
def Both : Nat := 2

/-- Piece codes 0..11 in the order white P,N,B,R,Q,K then black p,n,b,r,q,k
(spec 3.2; enumeration lives in the missing definitions.h). -/
def P : Nat := 0

/-- White knight piece code. -/
def N : Nat := 1

/-- White bishop piece code. -/
def B : Nat := 2

/-- White rook piece code. -/
def R : Nat := 3

/-- White queen piece code. -/
def Q : Nat := 4

/-- White king piece code. -/
def K : Nat := 5

/-- Black pawn piece code. -/
def p : Nat := 6

/-- Black knight piece code. -/
def n : Nat := 7

/-- Black bishop piece code. -/
def b : Nat := 8

/-- Black rook piece code. -/
def r : Nat := 9

/-- Black queen piece code. -/
def q : Nat := 10

/-- Black king piece code. -/
def k : Nat := 11

/-- The "no square" sentinel (spec 3.3: `NoSq` = 64). -/
def NoSq : Nat := 64

/-- Square indices are rank-major from a8 = 0 to h1 = 63 (spec 3.1). -/
def a8 : Nat := 0

/-- Square c8 = 2. -/
def c8 : Nat := 2

/-- Square d8 = 3. -/
def d8 : Nat := 3

/-- Square e8 = 4. -/
def e8 : Nat := 4

/-- Square f8 = 5. -/
def f8 : Nat := 5

/-- Square g8 = 6. -/
def g8 : Nat := 6

/-- Square h8 = 7. -/
def h8 : Nat := 7

/-- Square a1 = 56. -/
def a1 : Nat := 56

/-- Square c1 = 58. -/
def c1 : Nat := 58

/-- Square d1 = 59. -/
def d1 : Nat := 59

/-- Square e1 = 60. -/
def e1 : Nat := 60

/-- Square f1 = 61. -/
def f1 : Nat := 61

/-- Square g1 = 62. -/
def g1 : Nat := 62

/-- Square h1 = 63. -/
def h1 : Nat := 63

/-- Mask of a full 64-bit word; C++ computations are implicitly
truncated to 64 bits, which we make explicit with this mask. -/
def u64mask : Nat := 2 ^ 64 - 1

/-- bitboard.h `getBit`: `(b >> pos) & 1`. -/
def getBit (bb pos : Nat) : Nat := (bb >>> pos) &&& 1

/-- bitboard.h `setBit`: `b |= (1ULL << pos)`. -/
def setBit (bb pos : Nat) : Nat := bb ||| (1 <<< pos)

/-- Modelled from the spec: `popBit` lives in the missing definitions.h;
per spec 4.1 ("clear" flips a single bit off) it is the C++
`b &= ~(1ULL << pos)`, i.e. an idempotent clear of one bit.  `~x` on a
64-bit word is `x XOR (2^64 - 1)`. -/
def popBit (bb pos : Nat) : Nat := bb &&& (u64mask ^^^ (1 <<< pos))

/-- bitboard.h file mask `NotFileA_Mask`. -/
def NotFileA_Mask : Nat := 18374403900871474942

/-- bitboard.h file mask `NotFileH_Mask`. -/
def NotFileH_Mask : Nat := 9187201950435737471

/-- bitboard.h file mask `NotFileHG_Mask`. -/
def NotFileHG_Mask : Nat := 4557430888798830399

/-- bitboard.h file mask `NotFileAB_Mask`. -/
def NotFileAB_Mask : Nat := 18229723555195321596

/-- Truncate a value to 64 bits (the implicit width of C++ `Bitboard`). -/
def wrap64 (x : Nat) : Nat := x &&& u64mask

/-- bitboard.cpp `maskPawnAttacks`: pawn attack bitboard of `side` from
`square`, built by shifting a single-bit board and testing wraparound
with the file masks.  Left shifts wrap at 64 bits as in C++. -/
def maskPawnAttacks (side square : Nat) : Nat :=
  let bb := setBit 0 square
  if side = White then
    (if (bb >>> 7) &&& NotFileA_Mask ≠ 0 then bb >>> 7 else 0) |||
    (if (bb >>> 9) &&& NotFileH_Mask ≠ 0 then bb >>> 9 else 0)
  else if side = Black then
    (if wrap64 (bb <<< 7) &&& NotFileH_Mask ≠ 0 then wrap64 (bb <<< 7) else 0) |||
    (if wrap64 (bb <<< 9) &&& NotFileA_Mask ≠ 0 then wrap64 (bb <<< 9) else 0)
  else 0

/-- bitboard.cpp `maskKnightAttacks`. -/
def maskKnightAttacks (square : Nat) : Nat :=
  let bb := setBit 0 square
  (if (bb >>> 17) &&& NotFileH_Mask ≠ 0 then bb >>> 17 else 0) |||
  (if (bb >>> 15) &&& NotFileA_Mask ≠ 0 then bb >>> 15 else 0) |||
  (if (bb >>> 10) &&& NotFileHG_Mask ≠ 0 then bb >>> 10 else 0) |||
  (if (bb >>> 6) &&& NotFileAB_Mask ≠ 0 then bb >>> 6 else 0) |||
  (if wrap64 (bb <<< 17) &&& NotFileA_Mask ≠ 0 then wrap64 (bb <<< 17) else 0) |||
  (if wrap64 (bb <<< 15) &&& NotFileH_Mask ≠ 0 then wrap64 (bb <<< 15) else 0) |||
  (if wrap64 (bb <<< 10) &&& NotFileAB_Mask ≠ 0 then wrap64 (bb <<< 10) else 0) |||
  (if wrap64 (bb <<< 6) &&& NotFileHG_Mask ≠ 0 then wrap64 (bb <<< 6) else 0)

/-- bitboard.cpp `maskKingAttacks`. -/
def maskKingAttacks (square : Nat) : Nat :=
  let bb := setBit 0 square
  (if bb >>> 8 ≠ 0 then bb >>> 8 else 0) |||
  (if (bb >>> 9) &&& NotFileH_Mask ≠ 0 then bb >>> 9 else 0) |||
  (if (bb >>> 7) &&& NotFileA_Mask ≠ 0 then bb >>> 7 else 0) |||
  (if (bb >>> 1) &&& NotFileH_Mask ≠ 0 then bb >>> 1 else 0) |||
  (if wrap64 (bb <<< 8) ≠ 0 then wrap64 (bb <<< 8) else 0) |||
  (if wrap64 (bb <<< 9) &&& NotFileA_Mask ≠ 0 then wrap64 (bb <<< 9) else 0) |||
  (if wrap64 (bb <<< 7) &&& NotFileH_Mask ≠ 0 then wrap64 (bb <<< 7) else 0) |||
  (if wrap64 (bb <<< 1) &&& NotFileA_Mask ≠ 0 then wrap64 (bb <<< 1) else 0)

/-- Contents of the `PawnAttacks[2][64]` table after
bitboard.cpp `initLeaperAttacks` has run: entry `[side][square]` is
`maskPawnAttacks(side, square)`. -/
def PawnAttacks (side square : Nat) : Nat := maskPawnAttacks side square

/-- Contents of `KnightAttacks[64]` after `initLeaperAttacks`. -/
def KnightAttacks (square : Nat) : Nat := maskKnightAttacks square

/-- Contents of `KingAttacks[64]` after `initLeaperAttacks`. -/
def KingAttacks (square : Nat) : Nat := maskKingAttacks square

/-- Walk one sliding-piece ray from rank `rk`, file `fl` in direction
`(dr, df)` over blocker set `occ`, collecting squares until a blocker
(inclusive) or the board edge; `fuel` bounds the walk. -/
def rayDir (occ : Nat) (rk fl dr df : Int) : Nat → Nat
  | 0 => 0
  | fuel + 1 =>
    let rk2 := rk + dr
    let fl2 := fl + df
    if 0 ≤ rk2 ∧ rk2 ≤ 7 ∧ 0 ≤ fl2 ∧ fl2 ≤ 7 then
      let sq := (rk2 * 8 + fl2).toNat
      if getBit occ sq = 1 then setBit 0 sq
      else setBit 0 sq ||| rayDir occ rk2 fl2 dr df fuel
    else 0

/-- Modelled from the spec: `getBishopAttacks` lives in the missing
headers; spec 4.2 specifies that the magic lookup reproduces the
ray-cast attack set ("compute the actual attack bitboard by ray-casting
until a blocker or board edge"), which is what we implement directly. -/
def getBishopAttacks (square occ : Nat) : Nat :=
  let rk : Int := square / 8
  let fl : Int := square % 8
  rayDir occ rk fl 1 1 8 ||| rayDir occ rk fl 1 (-1) 8 |||
  rayDir occ rk fl (-1) 1 8 ||| rayDir occ rk fl (-1) (-1) 8

/-- Modelled from the spec: `getRookAttacks`, ray-cast semantics of the
rook magic lookup (spec 4.2). -/
def getRookAttacks (square occ : Nat) : Nat :=
  let rk : Int := square / 8
  let fl : Int := square % 8
  rayDir occ rk fl 1 0 8 ||| rayDir occ rk fl (-1) 0 8 |||
  rayDir occ rk fl 0 1 8 ||| rayDir occ rk fl 0 (-1) 8

/-- Modelled from the spec: `getQueenAttacks` is the union of the bishop
and rook attack sets (spec 4.4). -/
def getQueenAttacks (square occ : Nat) : Nat :=
  getBishopAttacks square occ ||| getRookAttacks square occ

/-- bitboard.h `ls1b` index table `INDEX64` (De Bruijn bit scan). -/
def INDEX64 : List Nat :=
  [63, 0, 58, 1, 59, 47, 53, 2,
   60, 39, 48, 27, 54, 33, 42, 3,
   61, 51, 37, 40, 49, 18, 28, 20,
   55, 30, 34, 11, 43, 14, 22, 4,
   62, 57, 46, 52, 38, 26, 32, 41,
   50, 36, 17, 19, 29, 10, 13, 21,
   56, 45, 25, 31, 35, 16, 9, 12,
   44, 24, 15, 8, 23, 7, 6, 5]

/-- bitboard.h De Bruijn multiplier. -/
def DEBRUIJN64 : Nat := 0x07EDD5E59A4E28C2

/-- bitboard.h `ls1b`: index of the least significant set bit via
De Bruijn multiplication.  `bb & -bb` is two's complement on 64 bits,
i.e. `bb &&& (2^64 - bb)` truncated to 64 bits. -/
def ls1b (bb : Nat) : Nat :=
  INDEX64.getD ((wrap64 ((bb &&& wrap64 (2 ^ 64 - bb)) * DEBRUIJN64)) >>> 58) 0

/-- movgen.h move encoding macro `encodeMove` (24-bit packed move). -/
def encodeMove (fromSq toSq piece promo capture double ep castling : Nat) : Nat :=
  fromSq ||| (toSq <<< 6) ||| (piece <<< 12) ||| (promo <<< 16) |||
  (capture <<< 20) ||| (double <<< 21) ||| (ep <<< 22) ||| (castling <<< 23)

/-- movgen.h `getMoveSource`. -/
def getMoveSource (move : Nat) : Nat := move &&& 0x3f

/-- movgen.h `getMoveTarget`. -/
def getMoveTarget (move : Nat) : Nat := (move &&& 0xfc0) >>> 6

/-- movgen.h `getMovePiece`. -/
def getMovePiece (move : Nat) : Nat := (move &&& 0xf000) >>> 12

/-- movgen.h `getPromo`. -/
def getPromo (move : Nat) : Nat := (move &&& 0xf0000) >>> 16

/-- movgen.h `getMoveCapture` (nonzero iff the capture flag is set). -/
def getMoveCapture (move : Nat) : Nat := move &&& 0x100000

/-- movgen.h `getDoublePush`. -/
def getDoublePush (move : Nat) : Nat := move &&& 0x200000

/-- movgen.h `getEp`. -/
def getEp (move : Nat) : Nat := move &&& 0x400000

/-- movgen.h `getCastle`. -/
def getCastle (move : Nat) : Nat := move &&& 0x800000

/-- movgen.h `CastlingRights[64]`: per-square masks AND-ed into the
castling rights when a move touches the square. -/
def CastlingRights : List Nat :=
  [7, 15, 15, 15, 3, 15, 15, 11,
   15, 15, 15, 15, 15, 15, 15, 15,
   15, 15, 15, 15, 15, 15, 15, 15,
   15, 15, 15, 15, 15, 15, 15, 15,
   15, 15, 15, 15, 15, 15, 15, 15,
   15, 15, 15, 15, 15, 15, 15, 15,
   15, 15, 15, 15, 15, 15, 15, 15,
   13, 15, 15, 15, 12, 15, 15, 14]

/-- Array read `CastlingRights[sq]` (every move square is < 64, so the
default is never reached). -/
def castlingRightsAt (sq : Nat) : Nat := CastlingRights.getD sq 0

/-- Modelled from the spec: the `StateInfo` record of the missing
position.h, as used by movgen.h — it records at least the captured
piece, the castling rights and the en-passant square of an entry of the
state-history stack (spec 3.3). -/
structure StateInfo where
  capturedPiece : Nat
  castle : Nat
  epsq : Nat
deriving DecidableEq

/-- An uninitialized `StateInfo` (reading past the bottom of the state
chain is a precondition violation in the C++; the sentinel's captured
piece 12 is outside the piece range 0..11). -/
def stSentinel : StateInfo := ⟨12, 0, NoSq⟩

/-- The engine's global position state: the twelve piece bitboards
(indexed by piece code 0..11), the three occupancies (indexed by
White/Black/Both), side to move, en-passant square, castling rights and
the state-history chain `st` (head = current `StateInfo`, tail =
previous entries). -/
structure Position where
  bitboards : Nat → Nat
  occupancies : Nat → Nat
  sideToMove : Nat
  epsq : Nat
  castle : Nat
  hist : List StateInfo

/-- Read-modify-write of one cell of a global array: the C++ pattern
`arr[i] = f(arr[i])` used by `popBit(bitboards[piece], sq)` etc. -/
def updBB (f : Nat → Nat) (i : Nat) (g : Nat → Nat) : Nat → Nat :=
  Function.update f i (g (f i))

/-- movgen.h `MoveType` value `AllMoves` = 0. -/
def AllMoves : Nat := 0

/-- movgen.h `MoveType` value `CaptureMoves` = 1. -/
def CaptureMoves : Nat := 1

/-- The opponent piece-code range scanned by the capture loops of
`makeMove` and `scoreMove`: `p..k` when white is to move, `P..K`
otherwise. -/
def oppRangeOf (side : Nat) : List Nat :=
  if side = White then [p, n, b, r, q, k] else [P, N, B, R, Q, K]

/-- The capture scan of movgen.h `makeMove` / search.h `scoreMove`:
first piece code in `range` whose bitboard has a bit at `toSq`. -/
def findVictim (bbs : Nat → Nat) (range : List Nat) (toSq : Nat) : Option Nat :=
  range.find? (fun pc => getBit (bbs pc) toSq != 0)

/-- The rook relocation of the `switch (toSq)` castling block of
movgen.h `makeMove` (lines 453-521): moves the rook and updates the
mover's occupancy for the four castling targets, no change otherwise. -/
def castleRookMove (toSq : Nat) (bbs occs : Nat → Nat) : (Nat → Nat) × (Nat → Nat) :=
  if toSq = g1 then
    (updBB (updBB bbs R (fun x => popBit x h1)) R (fun x => setBit x f1),
     updBB (updBB occs White (fun x => popBit x h1)) White (fun x => setBit x f1))
  else if toSq = c1 then
    (updBB (updBB bbs R (fun x => popBit x a1)) R (fun x => setBit x d1),
     updBB (updBB occs White (fun x => popBit x a1)) White (fun x => setBit x d1))
  else if toSq = g8 then
    (updBB (updBB bbs r (fun x => popBit x h8)) r (fun x => setBit x f8),
     updBB (updBB occs Black (fun x => popBit x h8)) Black (fun x => setBit x f8))
  else if toSq = c8 then
    (updBB (updBB bbs r (fun x => popBit x a8)) r (fun x => setBit x d8),
     updBB (updBB occs Black (fun x => popBit x a8)) Black (fun x => setBit x d8))
  else (bbs, occs)

/-- The `st->capturedPiece / st->castle / st->epsq` writes of
movgen.h `makeMove`: overwrite fields of the current (head) state-chain
entry.  `makeMove` pushes no new entry; callers are expected to. -/
def updateTopState (hist : List StateInfo) (victim : Option Nat) (c e : Nat) :
    List StateInfo :=
  match hist with
  | [] => []
  | s :: rest =>
    { s with
      capturedPiece := victim.getD s.capturedPiece
      castle := c
      epsq := e } :: rest

/-- The mutation sequence of movgen.h `makeMove` (flag = AllMoves),
lines 276-546: move the piece, remove any captured piece, apply
promotion, en-passant removal (with the source's duplicated white-side
pop), en-passant square reset/set, castling rook move, castling-rights
update, state-info write, occupancy recomputation and side flip.  The
legality check that follows is `makeMoveAll`. -/
def applyMoveAll (move : Nat) (pos : Position) : Position :=
  let fromSq := getMoveSource move
  let toSq := getMoveTarget move
  let piece := getMovePiece move
  let promo := getPromo move
  let capture := getMoveCapture move
  let dpush := getDoublePush move
  let ep := getEp move
  let castling := getCastle move
  let them := if pos.sideToMove = White then Black else White
  let bbs1 := updBB (updBB pos.bitboards piece (fun x => popBit x fromSq))
    piece (fun x => setBit x toSq)
  let occs1 := updBB (updBB pos.occupancies pos.sideToMove (fun x => popBit x fromSq))
    pos.sideToMove (fun x => setBit x toSq)
  let victim := if capture ≠ 0 then findVictim bbs1 (oppRangeOf pos.sideToMove) toSq
    else none
  let bbs2 := match victim with
    | some pc => updBB bbs1 pc (fun x => popBit x toSq)
    | none => bbs1
  let occs2 := match victim with
    | some _ => updBB occs1 them (fun x => popBit x toSq)
    | none => occs1
  let bbs3 := if promo ≠ 0 then
      updBB (if pos.sideToMove = White then updBB bbs2 P (fun x => popBit x toSq)
             else updBB bbs2 p (fun x => popBit x toSq))
        promo (fun x => setBit x toSq)
    else bbs2
  let bbs4 := if ep ≠ 0 then
      (if pos.sideToMove = White then
        updBB (updBB bbs3 p (fun x => popBit x (toSq + 8))) p (fun x => popBit x (toSq + 8))
      else
        updBB (updBB bbs3 P (fun x => popBit x (toSq - 8))) P (fun x => popBit x (toSq - 8)))
    else bbs3
  let occs3 := if ep ≠ 0 then
      (if pos.sideToMove = White then updBB occs2 Black (fun x => popBit x (toSq + 8))
       else updBB occs2 White (fun x => popBit x (toSq - 8)))
    else occs2
  let epsq2 := if dpush ≠ 0 then (if pos.sideToMove = White then toSq + 8 else toSq - 8)
    else NoSq
  let bo := if castling ≠ 0 then castleRookMove toSq bbs4 occs3 else (bbs4, occs3)
  let castle2 := (pos.castle &&& castlingRightsAt fromSq) &&& castlingRightsAt toSq
  let hist2 := updateTopState pos.hist victim castle2 epsq2
  let occs5 := updBB bo.2 Both (fun _ => bo.2 White ||| bo.2 Black)
  { bitboards := bo.1, occupancies := occs5, sideToMove := pos.sideToMove ^^^ 1,
    epsq := epsq2, castle := castle2, hist := hist2 }

/-- movgen.h `isSquareAttacked`: true iff any piece of `side` attacks
`square` under the current combined occupancy. -/
def isSquareAttacked (pos : Position) (square side : Nat) : Bool :=
  if side = White ∧ PawnAttacks Black square &&& pos.bitboards P ≠ 0 then true
  else if side = Black ∧ PawnAttacks White square &&& pos.bitboards p ≠ 0 then true
  else if KnightAttacks square &&&
      (if side = White then pos.bitboards N else pos.bitboards n) ≠ 0 then true
  else if getBishopAttacks square (pos.occupancies Both) &&&
      (if side = White then pos.bitboards B else pos.bitboards b) ≠ 0 then true
  else if getRookAttacks square (pos.occupancies Both) &&&
      (if side = White then pos.bitboards R else pos.bitboards r) ≠ 0 then true
  else if getQueenAttacks square (pos.occupancies Both) &&&
      (if side = White then pos.bitboards Q else pos.bitboards q) ≠ 0 then true
  else if KingAttacks square &&&
      (if side = White then pos.bitboards K else pos.bitboards k) ≠ 0 then true
  else false

/-- The legality test at the end of movgen.h `makeMove` (lines
549-553): after the side flip, is the former mover's king attacked by
the new side to move? -/
def makeLegality (pos2 : Position) : Bool :=
  isSquareAttacked pos2
    (if pos2.sideToMove = White then ls1b (pos2.bitboards k) else ls1b (pos2.bitboards K))
    pos2.sideToMove

/-- movgen.h `makeMove` with flag = AllMoves: apply all mutation steps,
then return 0 (illegal) or 1 (legal).  The mutated position is kept in
either case — the source performs no reversal on failure. -/
def makeMoveAll (move : Nat) (pos : Position) : Nat × Position :=
  let pos2 := applyMoveAll move pos
  if makeLegality pos2 then (0, pos2) else (1, pos2)

/-- movgen.h `makeMove(move, flag)`.  Under `CaptureMoves` the source
calls `makeMove(move, AllMoves)` for capture moves but discards its
result and falls through to the final `return 0`; non-captures return 0
with no state change. -/
def makeMove (move flag : Nat) (pos : Position) : Nat × Position :=
  if flag = AllMoves then makeMoveAll move pos
  else if getMoveCapture move ≠ 0 then (0, (makeMoveAll move pos).2)
  else (0, pos)

/-- The 12-case `switch (piece)` of movgen.h `undoMove` (lines
710-783): clear the moving piece from the target square and restore it
at the source, updating its own side's occupancy; the white piece codes
P..K pair with the white occupancy and p..k with the black one.  An
out-of-range piece matches no case and changes nothing. -/
def undoPieceMove (piece toSq fromSq : Nat) (bbs occs : Nat → Nat) :
    (Nat → Nat) × (Nat → Nat) :=
  if piece ≤ k then
    let sd := if piece ≤ K then White else Black
    (updBB (updBB bbs piece (fun x => popBit x toSq)) piece (fun x => setBit x fromSq),
     updBB (updBB occs sd (fun x => popBit x toSq)) sd (fun x => setBit x fromSq))
  else (bbs, occs)

/-- movgen.h `undoMove` (lines 582-811), transcribed with its slips
intact: the black-promotion switch compares `promo` against the white
piece codes N/B/R/Q; the black-castling branch operates on
`bitboards[K]`, `bitboards[R]` and (for the king) `occupancies[White]`;
the restored captured piece is put back in its bitboard but not in its
side's occupancy; and the en-passant square is never restored.  The
final lines pop the state chain and reload `castle` from the new top
entry. -/
def undoMove (m : Nat) (pos : Position) : Position :=
  let side2 := pos.sideToMove ^^^ 1
  let fromSq := getMoveSource m
  let toSq := getMoveTarget m
  let piece := getMovePiece m
  let promo := getPromo m
  let pr : (Nat → Nat) × (Nat → Nat) :=
    if promo ≠ 0 then
      if side2 = White then
        let bbsA := if promo = N then updBB pos.bitboards N (fun x => popBit x toSq)
          else if promo = B then updBB pos.bitboards B (fun x => popBit x toSq)
          else if promo = R then updBB pos.bitboards R (fun x => popBit x toSq)
          else if promo = Q then updBB pos.bitboards Q (fun x => popBit x toSq)
          else pos.bitboards
        (updBB bbsA P (fun x => setBit x fromSq),
         updBB (updBB pos.occupancies White (fun x => popBit x toSq))
           White (fun x => setBit x fromSq))
      else
        let bbsA := if promo = N then updBB pos.bitboards n (fun x => popBit x toSq)
          else if promo = B then updBB pos.bitboards b (fun x => popBit x toSq)
          else if promo = R then updBB pos.bitboards r (fun x => popBit x toSq)
          else if promo = Q then updBB pos.bitboards q (fun x => popBit x toSq)
          else pos.bitboards
        (updBB bbsA p (fun x => setBit x fromSq),
         updBB (updBB pos.occupancies Black (fun x => popBit x toSq))
           Black (fun x => setBit x fromSq))
    else if getCastle m ≠ 0 then
      if fromSq = e1 then
        let bbsA := updBB (updBB pos.bitboards K (fun x => popBit x toSq))
          K (fun x => setBit x e1)
        let occsA := updBB (updBB pos.occupancies White (fun x => popBit x toSq))
          White (fun x => setBit x e1)
        if toSq = g1 then
          (updBB (updBB bbsA R (fun x => popBit x f1)) R (fun x => setBit x h1),
           updBB (updBB occsA White (fun x => popBit x f1)) White (fun x => setBit x h1))
        else
          (updBB (updBB bbsA R (fun x => popBit x d1)) R (fun x => setBit x a1),
           updBB (updBB occsA White (fun x => popBit x d1)) White (fun x => setBit x a1))
      else
        let bbsA := updBB (updBB pos.bitboards K (fun x => popBit x toSq))
          K (fun x => setBit x e8)
        let occsA := updBB (updBB pos.occupancies White (fun x => popBit x toSq))
          White (fun x => setBit x e8)
        if toSq = g8 then
          (updBB (updBB bbsA R (fun x => popBit x f8)) R (fun x => setBit x h8),
           updBB (updBB occsA Black (fun x => popBit x f8)) Black (fun x => setBit x h8))
        else
          (updBB (updBB bbsA R (fun x => popBit x d8)) R (fun x => setBit x a8),
           updBB (updBB occsA Black (fun x => popBit x d8)) Black (fun x => setBit x a8))
    else
      let mv := undoPieceMove piece toSq fromSq pos.bitboards pos.occupancies
      let cp := (pos.hist.headD stSentinel).capturedPiece
      if P ≤ cp ∧ cp ≤ k then
        let capsq := if getEp m ≠ 0 then (if side2 = White then toSq + 8 else toSq - 8)
          else toSq
        (updBB mv.1 cp (fun x => setBit x capsq), mv.2)
      else mv
  let occsB := updBB pr.2 Both (fun _ => pr.2 White ||| pr.2 Black)
  let hist2 := pos.hist.tail
  { bitboards := pr.1, occupancies := occsB, sideToMove := side2,
    epsq := pos.epsq, castle := (hist2.headD stSentinel).castle, hist := hist2 }

/-- search.h `MOVESCORE_PROMO_QUIET`. -/
def MOVESCORE_PROMO_QUIET : Int := 10000

/-- search.h `mvv_lva[12][12]` MVV/LVA table. -/
def mvv_lva : List (List Int) :=
  [[105, 205, 305, 405, 505, 605, 105, 205, 305, 405, 505, 605],
   [104, 204, 304, 404, 504, 604, 104, 204, 304, 404, 504, 604],
   [103, 203, 303, 403, 503, 603, 103, 203, 303, 403, 503, 603],
   [102, 202, 302, 402, 502, 602, 102, 202, 302, 402, 502, 602],
   [101, 201, 301, 401, 501, 601, 101, 201, 301, 401, 501, 601],
   [100, 200, 300, 400, 500, 600, 100, 200, 300, 400, 500, 600],
   [105, 205, 305, 405, 505, 605, 105, 205, 305, 405, 505, 605],
   [104, 204, 304, 404, 504, 604, 104, 204, 304, 404, 504, 604],
   [103, 203, 303, 403, 503, 603, 103, 203, 303, 403, 503, 603],
   [102, 202, 302, 402, 502, 602, 102, 202, 302, 402, 502, 602],
   [101, 201, 301, 401, 501, 601, 101, 201, 301, 401, 501, 601],
   [100, 200, 300, 400, 500, 600, 100, 200, 300, 400, 500, 600]]

/-- Table read `mvv_lva[attacker][victim]`. -/
def mvvLvaAt (attacker victim : Nat) : Int := (mvv_lva.getD attacker []).getD victim 0

/-- The ambient search state read by search.h `scoreMove`: the
`scorePV` flag, row 0 of the triangular PV table, the current `ply`,
the two killer rows and the history table. -/
structure SearchState where
  scorePV : Bool
  pvTable0 : Nat → Nat
  ply : Nat
  killers0 : Nat → Nat
  killers1 : Nat → Nat
  history : Nat → Nat → Int

/-- The victim scan of search.h `scoreMove` (lines 313-345): first
opponent piece with a bit on the capture's target square, defaulting to
`P` when none is found. -/
def capturedVictim (pos : Position) (toSq : Nat) : Nat :=
  (findVictim pos.bitboards (oppRangeOf pos.sideToMove) toSq).getD P

/-- search.h `scoreMove`: PV move 20000 (one-shot, clears `scorePV`),
captures `mvv_lva[attacker][victim] + 10000`, quiet promotions
`MOVESCORE_PROMO_QUIET`, killers 9000/8000, otherwise
`history[piece][target]`. -/
def scoreMove (pos : Position) (ss : SearchState) (move : Nat) : Int × SearchState :=
  if ss.scorePV ∧ ss.pvTable0 ss.ply = move then
    (20000, { ss with scorePV := false })
  else if getMoveCapture move ≠ 0 then
    (mvvLvaAt (getMovePiece move) (capturedVictim pos (getMoveTarget move)) + 10000, ss)
  else if getPromo move ≠ 0 then
    (MOVESCORE_PROMO_QUIET, ss)
  else if ss.killers0 ss.ply = move then (9000, ss)
  else if ss.killers1 ss.ply = move then (8000, ss)
  else (ss.history (getMovePiece move) (getMoveTarget move), ss)

/-- The entry assertion of search.cpp `dperft` (line 45):
`assert(depth < 0)`. -/
def dperftEntryAssert (depth : Int) : Prop := depth < 0

/-!  Concrete positions used to evaluate the code on specific inputs.
Each is a minimal legal position (one king per side, spec 3.3), with a
state chain of two entries: the head is the entry the caller pushed for
the move about to be made, the tail entry carries the pre-move
castle/ep values as the FEN parser would have set them. -/

/-- Piece bitboards of `posDP`: white king e1, white pawn e2, black
king a8. -/
def bbDP : Nat → Nat := fun i =>
  if i = P then (1 <<< 52) else if i = K then (1 <<< 60)
  else if i = k then 1 else 0

/-- Occupancies of `posDP`. -/
def occDP : Nat → Nat := fun i =>
  if i = White then (1 <<< 52) ||| (1 <<< 60) else if i = Black then 1
  else if i = Both then (1 <<< 52) ||| (1 <<< 60) ||| 1 else 0

/-- White to move, no en-passant square, no castling rights: used for
the double-push round trip. -/
def posDP : Position :=
  { bitboards := bbDP, occupancies := occDP, sideToMove := White, epsq := NoSq,
    castle := 0, hist := [⟨12, 0, NoSq⟩, ⟨12, 0, NoSq⟩] }

/-- The double pawn push e2e4 (source 52, target 36, piece P, double
push flag set). -/
def mDP : Nat := encodeMove 52 36 P 0 0 1 0 0

/-- Piece bitboards of `posCap`: white king e1, white pawn e2, black
knight d3 (square 43), black king a8. -/
def bbCap : Nat → Nat := fun i =>
  if i = P then (1 <<< 52) else if i = K then (1 <<< 60)
  else if i = n then (1 <<< 43) else if i = k then 1 else 0

/-- Occupancies of `posCap`. -/
def occCap : Nat → Nat := fun i =>
  if i = White then (1 <<< 52) ||| (1 <<< 60) else if i = Black then (1 <<< 43) ||| 1
  else if i = Both then (1 <<< 52) ||| (1 <<< 60) ||| (1 <<< 43) ||| 1 else 0

/-- White to move: used for the capture make/unmake round trip. -/
def posCap : Position :=
  { bitboards := bbCap, occupancies := occCap, sideToMove := White, epsq := NoSq,
    castle := 0, hist := [⟨12, 0, NoSq⟩, ⟨12, 0, NoSq⟩] }

/-- The pawn capture e2xd3 (source 52, target 43, piece P, capture flag
set). -/
def mCap : Nat := encodeMove 52 43 P 0 1 0 0 0

/-- Piece bitboards of `posIll`: white king e1, white knight b1 (57),
black pawn d2 (51), black king a8.  The white king is in check from
the black pawn. -/
def bbIll : Nat → Nat := fun i =>
  if i = N then (1 <<< 57) else if i = K then (1 <<< 60)
  else if i = p then (1 <<< 51) else if i = k then 1 else 0

/-- Occupancies of `posIll`. -/
def occIll : Nat → Nat := fun i =>
  if i = White then (1 <<< 57) ||| (1 <<< 60) else if i = Black then (1 <<< 51) ||| 1
  else if i = Both then (1 <<< 57) ||| (1 <<< 60) ||| (1 <<< 51) ||| 1 else 0

/-- White to move and in check: a quiet knight move is illegal. -/
def posIll : Position :=
  { bitboards := bbIll, occupancies := occIll, sideToMove := White, epsq := NoSq,
    castle := 0, hist := [⟨12, 0, NoSq⟩, ⟨12, 0, NoSq⟩] }

/-- The quiet knight move b1a3 (source 57, target 40, piece N). -/
def mIll : Nat := encodeMove 57 40 N 0 0 0 0 0

/-- Piece bitboards of `posEpSet`: white king e1, white knight b1,
black pawn e5 (28), black king a8. -/
def bbEpSet : Nat → Nat := fun i =>
  if i = N then (1 <<< 57) else if i = K then (1 <<< 60)
  else if i = p then (1 <<< 28) else if i = k then 1 else 0

/-- Occupancies of `posEpSet`. -/
def occEpSet : Nat → Nat := fun i =>
  if i = White then (1 <<< 57) ||| (1 <<< 60) else if i = Black then (1 <<< 28) ||| 1
  else if i = Both then (1 <<< 57) ||| (1 <<< 60) ||| (1 <<< 28) ||| 1 else 0

/-- White to move with the en-passant square set to e6 (20), as after
a black double push e7e5: used to show `undoMove` never restores
`epsq`. -/
def posEpSet : Position :=
  { bitboards := bbEpSet, occupancies := occEpSet, sideToMove := White, epsq := 20,
    castle := 0, hist := [⟨12, 0, 20⟩, ⟨12, 0, 20⟩] }

/-- The square of the pawn captured en passant: `target + 8` for a
white captor, `target - 8` for a black one (spec 4.5 step 5). -/
def epCaptureSquare (side toSq : Nat) : Nat := if side = White then toSq + 8 else toSq - 8

/-- The opponent's pawn piece code for a given side to move. -/
def oppPawnOf (side : Nat) : Nat := if side = White then p else P

/-- The opponent's side index for a given side to move. -/
def oppSideOf (side : Nat) : Nat := if side = White then Black else White

/-- Piece bitboards of `posEpCapt`: white king e1, white pawn e5 (28),
black pawn d5 (27), black king a8. -/
def bbEpCapt : Nat → Nat := fun i =>
  if i = P then (1 <<< 28) else if i = K then (1 <<< 60)
  else if i = p then (1 <<< 27) else if i = k then 1 else 0

/-- Occupancies of `posEpCapt`. -/
def occEpCapt : Nat → Nat := fun i =>
  if i = White then (1 <<< 28) ||| (1 <<< 60) else if i = Black then (1 <<< 27) ||| 1
  else if i = Both then (1 <<< 28) ||| (1 <<< 60) ||| (1 <<< 27) ||| 1 else 0

/-- White to move with the en-passant square d6 (19) available, as
after a black double push d7d5. -/
def posEpCapt : Position :=
  { bitboards := bbEpCapt, occupancies := occEpCapt, sideToMove := White, epsq := 19,
    castle := 0, hist := [⟨12, 0, 19⟩, ⟨12, 0, 19⟩] }

/-- The en-passant capture e5xd6 (source 28, target 19, piece P,
capture and en-passant flags set). -/
def mEpCapt : Nat := encodeMove 28 19 P 0 1 0 1 0

/-- Piece bitboards of `posScore`: white king e1, white pawn d4 (35),
white queen d1 (59), black queen c5 (26), black pawn d5 (27), black
king a8.  Used to exercise the `scoreMove` victim scan. -/
def bbScore : Nat → Nat := fun i =>
  if i = P then (1 <<< 35) else if i = Q then (1 <<< 59) else if i = K then (1 <<< 60)
  else if i = q then (1 <<< 26) else if i = p then (1 <<< 27)
  else if i = k then 1 else 0

/-- Occupancies of `posScore`. -/
def occScore : Nat → Nat := fun i =>
  if i = White then (1 <<< 35) ||| (1 <<< 59) ||| (1 <<< 60)
  else if i = Black then (1 <<< 26) ||| (1 <<< 27) ||| 1
  else if i = Both then (1 <<< 35) ||| (1 <<< 59) ||| (1 <<< 60) |||
    (1 <<< 26) ||| (1 <<< 27) ||| 1
  else 0

/-- White to move: the move-ordering scenario position. -/
def posScore : Position :=
  { bitboards := bbScore, occupancies := occScore, sideToMove := White, epsq := NoSq,
    castle := 0, hist := [⟨12, 0, NoSq⟩, ⟨12, 0, NoSq⟩] }

/-- PV move of the scenario: the quiet knight move b1a3. -/
def mPV : Nat := encodeMove 57 40 N 0 0 0 0 0

/-- Pawn-takes-queen capture d4xc5 (piece P, target 26 holds the black
queen). -/
def mPxQ : Nat := encodeMove 35 26 P 0 1 0 0 0

/-- Queen-takes-pawn capture d1xd5 (piece Q, target 27 holds the black
pawn). -/
def mQxP : Nat := encodeMove 59 27 Q 0 1 0 0 0

/-- Non-capture promotion e7e8q (piece P, promotion piece Q). -/
def mPromo : Nat := encodeMove 12 4 P Q 0 0 0 0

/-- First killer of the ply: the quiet pawn push e2e3. -/
def mK1 : Nat := encodeMove 52 44 P 0 0 0 0 0

/-- Second killer of the ply: the quiet pawn push d2d3. -/
def mK2 : Nat := encodeMove 51 43 P 0 0 0 0 0

/-- Quiet move with zero history: h2h3. -/
def mQuiet : Nat := encodeMove 55 47 P 0 0 0 0 0

/-- Search state of the move-ordering scenario: PV scoring enabled,
`mPV` in the PV table at ply 0, `mK1`/`mK2` as the ply's killers, and
an all-zero history table. -/
def ssScore : SearchState :=
  { scorePV := true, pvTable0 := fun _ => mPV, ply := 0,
    killers0 := fun _ => mK1, killers1 := fun _ => mK2,
    history := fun _ _ => 0 }

/-- Claim C1.  The round-trip law fails on the code: from `posDP`
(whose en-passant square is `NoSq`) the legal double push e2e4 is made
(result 1) and then undone, yet the position after `undoMove` has
`epsq = 44` (the e3 square set by the make) because `undoMove` never
restores the en-passant square — the round trip is not bitwise
identical. -/
theorem make_undo_double_push_epsq_not_restored :
    (makeMoveAll mDP posDP).1 = 1 ∧ posDP.epsq = NoSq ∧
    (undoMove mDP (makeMoveAll mDP posDP).2).epsq = 44 := by decide

/-- Claim C2.  Undoing the legal capture e2xd3 from `posCap` restores
the captured black knight in its piece bitboard but not in the black
occupancy: after `undoMove`, `occupancies[Black]` differs from the OR
of the black piece bitboards 6..11, violating the occupancy
invariant. -/
theorem undo_capture_occupancy_invariant_broken :
    (makeMoveAll mCap posCap).1 = 1 ∧
    (undoMove mCap (makeMoveAll mCap posCap).2).occupancies Black ≠
      ((undoMove mCap (makeMoveAll mCap posCap).2).bitboards p |||
       (undoMove mCap (makeMoveAll mCap posCap).2).bitboards n |||
       (undoMove mCap (makeMoveAll mCap posCap).2).bitboards b |||
       (undoMove mCap (makeMoveAll mCap posCap).2).bitboards r |||
       (undoMove mCap (makeMoveAll mCap posCap).2).bitboards q |||
       (undoMove mCap (makeMoveAll mCap posCap).2).bitboards k) := by decide

/-- Claim C3, counterexample.  From `posIll` (white in check from a
black pawn) the quiet knight move b1a3 makes `makeMove(m, AllMoves)`
return failure, yet the position after the call is not the position
before it: the knight bitboard and the side to move have changed —
`makeMove` does not reverse its mutations before returning 0. -/
theorem makeMove_failure_position_changed :
    (makeMove mIll AllMoves posIll).1 = 0 ∧
    (makeMove mIll AllMoves posIll).2.bitboards N ≠ posIll.bitboards N ∧
    (makeMove mIll AllMoves posIll).2.sideToMove ≠ posIll.sideToMove := by decide

/-- Claim C4.  The legal capture e2xd3 from `posCap`: under the
`CaptureMoves` filter `makeMove` produces the same resulting position
as under `AllMoves` (it delegates), but returns 0 where `AllMoves`
returns 1, because the recursive call's result is discarded and the
function falls through to `return 0`. -/
theorem makeMove_capture_filter_drops_result :
    (makeMove mCap CaptureMoves posCap).1 = 0 ∧
    (makeMove mCap AllMoves posCap).1 = 1 ∧
    (makeMove mCap CaptureMoves posCap).2 = (makeMove mCap AllMoves posCap).2 :=
  ⟨by decide, by decide, rfl⟩

/-- Claim C5.  From `posEpSet` (en-passant square e6 = 20) the legal
quiet knight move b1a3 is made — which resets `epsq` to `NoSq` — and
then undone: `undoMove` pops the state chain and reloads `castle`, but
leaves `epsq` at `NoSq` instead of restoring the pre-make value 20. -/
theorem undoMove_epsq_not_restored :
    posEpSet.epsq = 20 ∧ (makeMoveAll mIll posEpSet).1 = 1 ∧
    (undoMove mIll (makeMoveAll mIll posEpSet).2).epsq = NoSq := by decide

/-- Claim C10.  The entry assertion of `dperft`, `assert(depth < 0)`,
is false for every depth ≥ 1: `dperft` aborts with an assertion
failure on every depth the claim covers, before printing anything. -/
theorem dperft_entry_assert_fails (d : Int) (hd : 1 ≤ d) : ¬ dperftEntryAssert d := by
  simp only [dperftEntryAssert]
  omega

/-- Witness for `dperft_entry_assert_fails` at depth 1. -/
theorem dperft_entry_assert_fails_witness : (1 : Int) ≤ 1 ∧ ¬ dperftEntryAssert 1 :=
  ⟨le_refl 1, dperft_entry_assert_fails 1 (le_refl 1)⟩

/-- The position component of `makeMove(move, AllMoves)` is the fully
mutated position, whatever the legality result. -/
theorem makeMoveAll_snd (move : Nat) (pos : Position) :
    (makeMoveAll move pos).2 = applyMoveAll move pos := by
  by_cases hleg : makeLegality (applyMoveAll move pos) = true <;>
    simp [makeMoveAll, hleg]

/-- Claim C3, amended.  When `makeMove(m, AllMoves)` returns failure
(the former mover's king is attacked by the new side to move), the
position after the call is the fully mutated position — identical to
the one a successful make would have produced, with the side flipped
and the move applied; `makeMove` performs no reversal, restoration
being the caller's job via the saveBoard/takeBack macros.  The result
is 0 exactly when the legality test on the mutated position fires. -/
theorem makeMove_failure_no_reversal (move : Nat) (pos : Position) :
    (makeMove move AllMoves pos).2 = applyMoveAll move pos ∧
    ((makeMove move AllMoves pos).1 = 0 ↔
      makeLegality (applyMoveAll move pos) = true) := by
  have hAll : makeMove move AllMoves pos = makeMoveAll move pos := by
    simp [makeMove]
  rw [hAll]
  by_cases hleg : makeLegality (applyMoveAll move pos) = true <;>
    simp [makeMoveAll, hleg]

/-- Claim C7.  `makeMove` only ever narrows the castling rights: under
`AllMoves` the post-make rights equal the prior rights AND-ed with the
`CastlingRights` table entries of the source and target squares, and
under any flag every bit set afterwards was set before. -/
theorem makeMove_castle_rights_monotone (move flag : Nat) (pos : Position) :
    (makeMove move AllMoves pos).2.castle =
      pos.castle &&& castlingRightsAt (getMoveSource move) &&&
        castlingRightsAt (getMoveTarget move) ∧
    ∀ i, ((makeMove move flag pos).2.castle).testBit i = true →
      pos.castle.testBit i = true := by
  have happly : (applyMoveAll move pos).castle =
      pos.castle &&& castlingRightsAt (getMoveSource move) &&&
        castlingRightsAt (getMoveTarget move) := rfl
  have hAll : (makeMove move AllMoves pos).2 = applyMoveAll move pos := by
    have h1 : makeMove move AllMoves pos = makeMoveAll move pos := by
      simp [makeMove]
    rw [h1, makeMoveAll_snd]
  refine ⟨by rw [hAll, happly], ?_⟩
  intro i hi
  by_cases hflag : flag = AllMoves
  · subst hflag
    rw [hAll, happly] at hi
    simp only [Nat.testBit_land, Bool.and_eq_true] at hi
    exact hi.1.1
  · by_cases hcapt : getMoveCapture move ≠ 0
    · have h2 : (makeMove move flag pos).2 = applyMoveAll move pos := by
        simp [makeMove, hflag, hcapt, makeMoveAll_snd]
      rw [h2, happly] at hi
      simp only [Nat.testBit_land, Bool.and_eq_true] at hi
      exact hi.1.1
    · have h2 : (makeMove move flag pos).2 = pos := by
        simp [makeMove, hflag, hcapt]
      rw [h2] at hi
      exact hi

/-- Reading an updated array cell at a different index. -/
theorem updBB_apply_ne (f : Nat → Nat) (i j : Nat) (g : Nat → Nat) (h : j ≠ i) :
    updBB f i g j = f j := by
  simp [updBB, Function.update_noteq h]

/-- Reading an updated array cell at the updated index. -/
theorem updBB_apply_eq (f : Nat → Nat) (i : Nat) (g : Nat → Nat) :
    updBB f i g i = g (f i) := by
  simp [updBB]

/-- Clearing a bit is idempotent: the second pop of the duplicated
en-passant removal is a no-op. -/
theorem popBit_popBit (x s : Nat) : popBit (popBit x s) s = popBit x s := by
  apply Nat.eq_of_testBit_eq
  intro i
  simp [popBit, Nat.testBit_land, Bool.and_assoc]

/-- `getBit` agrees with `Nat.testBit`. -/
theorem getBit_eq_zero_iff (bb s : Nat) : getBit bb s = 0 ↔ bb.testBit s = false := by
  rw [getBit, Nat.and_one_is_mod, Nat.shiftRight_eq_div_pow, Nat.testBit_to_div_mod]
  rcases Nat.mod_two_eq_zero_or_one (bb / 2 ^ s) with h | h <;> simp [h]

/-- `popBit` clears bit `s` and keeps every other bit below 64. -/
theorem testBit_popBit (x s j : Nat) (hj : j < 64) :
    (popBit x s).testBit j = (x.testBit j && !(decide (s = j))) := by
  have h64 : u64mask = 2 ^ 64 - 1 := rfl
  simp only [popBit, h64, Nat.one_shiftLeft, Nat.testBit_land, Nat.testBit_xor,
    Nat.testBit_two_pow_sub_one, Nat.testBit_two_pow]
  simp [hj]

/-- The popped bit is clear afterwards. -/
theorem getBit_popBit_self (x s : Nat) (hs : s < 64) : getBit (popBit x s) s = 0 := by
  rw [getBit_eq_zero_iff, testBit_popBit x s s hs]
  simp

/-- White side of the en-passant analysis: for a white en-passant move
(no promotion/castling, pawn mover, no opponent piece on the target
square) `makeMove`'s mutations take the opponent pawn bitboard to
`popBit` at `target + 8` — the duplicated pop collapses to one — clear
that square from the black occupancy, and leave every other black
piece bitboard unchanged. -/
theorem applyMove_ep_white
    (move : Nat) (pos : Position)
    (hs : pos.sideToMove = White)
    (hep : getEp move ≠ 0)
    (hpromo : getPromo move = 0)
    (hcastle : getCastle move = 0)
    (hpiece : getMovePiece move = P)
    (hscan : ∀ pc, pc ∈ oppRangeOf White →
      getBit (pos.bitboards pc) (getMoveTarget move) = 0) :
    (applyMoveAll move pos).bitboards p =
      popBit (pos.bitboards p) (getMoveTarget move + 8) ∧
    (applyMoveAll move pos).occupancies Black =
      popBit (pos.occupancies Black) (getMoveTarget move + 8) ∧
    (∀ pc, pc ∈ oppRangeOf White → pc ≠ p →
      (applyMoveAll move pos).bitboards pc = pos.bitboards pc) := by
  have hmem : ∀ pc, pc ∈ oppRangeOf White → pc ≠ getMovePiece move := by
    intro pc hpc
    rw [hpiece]
    simp only [oppRangeOf, reduceIte, List.mem_cons, List.not_mem_nil, or_false] at hpc
    rcases hpc with h | h | h | h | h | h <;> (subst h; decide)
  have hbbs1 : ∀ pc, pc ∈ oppRangeOf White →
      updBB (updBB pos.bitboards (getMovePiece move) (fun x => popBit x (getMoveSource move)))
        (getMovePiece move) (fun x => setBit x (getMoveTarget move)) pc = pos.bitboards pc := by
    intro pc hpc
    rw [updBB_apply_ne _ _ _ _ (hmem pc hpc), updBB_apply_ne _ _ _ _ (hmem pc hpc)]
  have hfind : findVictim
      (updBB (updBB pos.bitboards (getMovePiece move) (fun x => popBit x (getMoveSource move)))
        (getMovePiece move) (fun x => setBit x (getMoveTarget move)))
      (oppRangeOf White) (getMoveTarget move) = none := by
    rw [findVictim, List.find?_eq_none]
    intro pc hpc
    simp [hbbs1 pc hpc, hscan pc hpc]
  have hvict : (if getMoveCapture move ≠ 0 then
      findVictim (updBB (updBB pos.bitboards (getMovePiece move)
          (fun x => popBit x (getMoveSource move)))
        (getMovePiece move) (fun x => setBit x (getMoveTarget move)))
        (oppRangeOf White) (getMoveTarget move)
    else none) = none := by
    by_cases hcapt : getMoveCapture move = 0
    · simp [hcapt]
    · simp [hcapt, hfind]
  have hpmem : p ∈ oppRangeOf White := by simp [oppRangeOf]
  refine ⟨?_, ?_, ?_⟩
  · simp only [applyMoveAll, hs, hvict, hpromo, hcastle, hep, ne_eq, not_true_eq_false,
      not_false_eq_true, ite_true, ite_false, reduceIte]
    rw [updBB_apply_eq, updBB_apply_eq, popBit_popBit, hbbs1 _ hpmem]
  · simp only [applyMoveAll, hs, hvict, hpromo, hcastle, hep, ne_eq, not_true_eq_false,
      not_false_eq_true, ite_true, ite_false, reduceIte]
    rw [updBB_apply_ne _ _ _ _ (by decide : Black ≠ Both), updBB_apply_eq,
      updBB_apply_ne _ _ _ _ (by decide : Black ≠ White),
      updBB_apply_ne _ _ _ _ (by decide : Black ≠ White)]
  · intro pc hpc hpcne
    simp only [applyMoveAll, hs, hvict, hpromo, hcastle, hep, ne_eq, not_true_eq_false,
      not_false_eq_true, ite_true, ite_false, reduceIte]
    rw [updBB_apply_ne _ _ _ _ hpcne, updBB_apply_ne _ _ _ _ hpcne, hbbs1 _ hpc]

/-- Black side of the en-passant analysis, mirroring
`applyMove_ep_white` with the captured white pawn at `target - 8`. -/
theorem applyMove_ep_black
    (move : Nat) (pos : Position)
    (hs : pos.sideToMove = Black)
    (hep : getEp move ≠ 0)
    (hpromo : getPromo move = 0)
    (hcastle : getCastle move = 0)
    (hpiece : getMovePiece move = p)
    (hscan : ∀ pc, pc ∈ oppRangeOf Black →
      getBit (pos.bitboards pc) (getMoveTarget move) = 0) :
    (applyMoveAll move pos).bitboards P =
      popBit (pos.bitboards P) (getMoveTarget move - 8) ∧
    (applyMoveAll move pos).occupancies White =
      popBit (pos.occupancies White) (getMoveTarget move - 8) ∧
    (∀ pc, pc ∈ oppRangeOf Black → pc ≠ P →
      (applyMoveAll move pos).bitboards pc = pos.bitboards pc) := by
  have hBW := eq_false (by decide : ¬(Black = White))
  have hmem : ∀ pc, pc ∈ oppRangeOf Black → pc ≠ getMovePiece move := by
    intro pc hpc
    rw [hpiece]
    simp only [oppRangeOf, hBW, if_false, List.mem_cons, List.not_mem_nil, or_false] at hpc
    rcases hpc with h | h | h | h | h | h <;> (rw [h]; decide)
  have hbbs1 : ∀ pc, pc ∈ oppRangeOf Black →
      updBB (updBB pos.bitboards (getMovePiece move) (fun x => popBit x (getMoveSource move)))
        (getMovePiece move) (fun x => setBit x (getMoveTarget move)) pc = pos.bitboards pc := by
    intro pc hpc
    rw [updBB_apply_ne _ _ _ _ (hmem pc hpc), updBB_apply_ne _ _ _ _ (hmem pc hpc)]
  have hfind : findVictim
      (updBB (updBB pos.bitboards (getMovePiece move) (fun x => popBit x (getMoveSource move)))
        (getMovePiece move) (fun x => setBit x (getMoveTarget move)))
      (oppRangeOf Black) (getMoveTarget move) = none := by
    rw [findVictim, List.find?_eq_none]
    intro pc hpc
    simp [hbbs1 pc hpc, hscan pc hpc]
  have hvict : (if getMoveCapture move ≠ 0 then
      findVictim (updBB (updBB pos.bitboards (getMovePiece move)
          (fun x => popBit x (getMoveSource move)))
        (getMovePiece move) (fun x => setBit x (getMoveTarget move)))
        (oppRangeOf Black) (getMoveTarget move)
    else none) = none := by
    by_cases hcapt : getMoveCapture move = 0
    · simp [hcapt]
    · simp [hcapt, hfind]
  have hpmem : P ∈ oppRangeOf Black := by decide
  refine ⟨?_, ?_, ?_⟩
  · simp only [applyMoveAll, hs, hvict, hpromo, hcastle, hep, hBW, ne_eq, not_true_eq_false,
      not_false_eq_true, ite_true, ite_false, reduceIte]
    rw [updBB_apply_eq, updBB_apply_eq, popBit_popBit, hbbs1 _ hpmem]
  · simp only [applyMoveAll, hs, hvict, hpromo, hcastle, hep, hBW, ne_eq, not_true_eq_false,
      not_false_eq_true, ite_true, ite_false, reduceIte]
    rw [updBB_apply_ne _ _ _ _ (by decide : White ≠ Both), updBB_apply_eq,
      updBB_apply_ne _ _ _ _ (by decide : White ≠ Black),
      updBB_apply_ne _ _ _ _ (by decide : White ≠ Black)]
  · intro pc hpc hpcne
    simp only [applyMoveAll, hs, hvict, hpromo, hcastle, hep, hBW, ne_eq, not_true_eq_false,
      not_false_eq_true, ite_true, ite_false, reduceIte]
    rw [updBB_apply_ne _ _ _ _ hpcne, updBB_apply_ne _ _ _ _ hpcne, hbbs1 _ hpc]

/-- Claim C6.  Making a move whose en-passant flag is set (a pawn
move, no promotion/castling, with an empty target square as en-passant
targets are) removes exactly one opponent pawn — its bitboard becomes
`popBit` of the old one at `target ± 8` (minus toward rank 8 indices
for a white captor, plus for black, i.e. `target + 8` and `target - 8`
in the a8=0 indexing) and that square is cleared — clears the square
from the opponent's occupancy, and changes no other opponent piece
bitboard; the duplicated pop in the white branch still removes exactly
one pawn because clearing a bit is idempotent. -/
theorem makeMove_ep_removes_exactly_one_pawn
    (move : Nat) (pos : Position)
    (hside : pos.sideToMove = White ∨ pos.sideToMove = Black)
    (hep : getEp move ≠ 0)
    (hpromo : getPromo move = 0)
    (hcastle : getCastle move = 0)
    (hpiece : getMovePiece move = (if pos.sideToMove = White then P else p))
    (hscan : ∀ pc, pc ∈ oppRangeOf pos.sideToMove →
      getBit (pos.bitboards pc) (getMoveTarget move) = 0)
    (hcaplt : epCaptureSquare pos.sideToMove (getMoveTarget move) < 64) :
    ((applyMoveAll move pos).bitboards (oppPawnOf pos.sideToMove) =
      popBit (pos.bitboards (oppPawnOf pos.sideToMove))
        (epCaptureSquare pos.sideToMove (getMoveTarget move))) ∧
    getBit ((applyMoveAll move pos).bitboards (oppPawnOf pos.sideToMove))
      (epCaptureSquare pos.sideToMove (getMoveTarget move)) = 0 ∧
    ((applyMoveAll move pos).occupancies (oppSideOf pos.sideToMove) =
      popBit (pos.occupancies (oppSideOf pos.sideToMove))
        (epCaptureSquare pos.sideToMove (getMoveTarget move))) ∧
    getBit ((applyMoveAll move pos).occupancies (oppSideOf pos.sideToMove))
      (epCaptureSquare pos.sideToMove (getMoveTarget move)) = 0 ∧
    (∀ pc, pc ∈ oppRangeOf pos.sideToMove → pc ≠ oppPawnOf pos.sideToMove →
      (applyMoveAll move pos).bitboards pc = pos.bitboards pc) := by
  rcases hside with hs | hs
  · simp only [hs, epCaptureSquare, oppPawnOf, oppSideOf, reduceIte] at hpiece hscan hcaplt ⊢
    obtain ⟨h1, h2, h3⟩ := applyMove_ep_white move pos hs hep hpromo hcastle hpiece hscan
    exact ⟨h1, by rw [h1]; exact getBit_popBit_self _ _ hcaplt,
      h2, by rw [h2]; exact getBit_popBit_self _ _ hcaplt, h3⟩
  · have hBW := eq_false (by decide : ¬(Black = White))
    simp only [hs, epCaptureSquare, oppPawnOf, oppSideOf, hBW, if_false]
      at hpiece hscan hcaplt ⊢
    obtain ⟨h1, h2, h3⟩ := applyMove_ep_black move pos hs hep hpromo hcastle hpiece hscan
    exact ⟨h1, by rw [h1]; exact getBit_popBit_self _ _ hcaplt,
      h2, by rw [h2]; exact getBit_popBit_self _ _ hcaplt, h3⟩

/-- Witness for `makeMove_ep_removes_exactly_one_pawn`: the en-passant
capture e5xd6 from `posEpCapt`. -/
theorem makeMove_ep_removes_exactly_one_pawn_witness :
    ((posEpCapt.sideToMove = White ∨ posEpCapt.sideToMove = Black) ∧
     getEp mEpCapt ≠ 0 ∧ getPromo mEpCapt = 0 ∧ getCastle mEpCapt = 0 ∧
     getMovePiece mEpCapt = (if posEpCapt.sideToMove = White then P else p) ∧
     (∀ pc, pc ∈ oppRangeOf posEpCapt.sideToMove →
       getBit (posEpCapt.bitboards pc) (getMoveTarget mEpCapt) = 0) ∧
     epCaptureSquare posEpCapt.sideToMove (getMoveTarget mEpCapt) < 64) ∧
    (((applyMoveAll mEpCapt posEpCapt).bitboards (oppPawnOf posEpCapt.sideToMove) =
      popBit (posEpCapt.bitboards (oppPawnOf posEpCapt.sideToMove))
        (epCaptureSquare posEpCapt.sideToMove (getMoveTarget mEpCapt))) ∧
    getBit ((applyMoveAll mEpCapt posEpCapt).bitboards (oppPawnOf posEpCapt.sideToMove))
      (epCaptureSquare posEpCapt.sideToMove (getMoveTarget mEpCapt)) = 0 ∧
    ((applyMoveAll mEpCapt posEpCapt).occupancies (oppSideOf posEpCapt.sideToMove) =
      popBit (posEpCapt.occupancies (oppSideOf posEpCapt.sideToMove))
        (epCaptureSquare posEpCapt.sideToMove (getMoveTarget mEpCapt))) ∧
    getBit ((applyMoveAll mEpCapt posEpCapt).occupancies (oppSideOf posEpCapt.sideToMove))
      (epCaptureSquare posEpCapt.sideToMove (getMoveTarget mEpCapt)) = 0 ∧
    (∀ pc, pc ∈ oppRangeOf posEpCapt.sideToMove → pc ≠ oppPawnOf posEpCapt.sideToMove →
      (applyMoveAll mEpCapt posEpCapt).bitboards pc = posEpCapt.bitboards pc)) := by
  constructor
  · decide
  · apply makeMove_ep_removes_exactly_one_pawn mEpCapt posEpCapt <;> decide

/-- Claim C8.  Symmetry of the leaper attack tables built by
`initLeaperAttacks`: square t is attacked by a pawn of side c on s iff
s is attacked by a pawn of the opposite side on t, and the knight and
king tables are symmetric in s and t. -/
theorem leaper_attack_tables_symmetric :
    ∀ c : Fin 2, ∀ s t : Fin 64,
      (getBit (PawnAttacks c.val s.val) t.val = 1 ↔
        getBit (PawnAttacks (1 - c.val) t.val) s.val = 1) ∧
      (getBit (KnightAttacks s.val) t.val = 1 ↔ getBit (KnightAttacks t.val) s.val = 1) ∧
      (getBit (KingAttacks s.val) t.val = 1 ↔ getBit (KingAttacks t.val) s.val = 1) := by
  decide

/-- Claim C9.  `scoreMove` linearly orders the seven kinds of the
move-ordering scenario: an enabled PV move scores 20000, a
pawn-takes-queen capture 10000 + mvv_lva = 10505, a queen-takes-pawn
capture 10101, a non-capture promotion 10000, the ply's first killer
9000, the second killer 8000, and a quiet move with zero history 0;
the scores are strictly descending in exactly that order. -/
theorem scoreMove_ordering
    (pos : Position) (ss : SearchState)
    (mpv mpxq mqxp mpromo mk1 mk2 mquiet : Nat)
    (hside : pos.sideToMove = White ∨ pos.sideToMove = Black)
    (hpv : ss.scorePV = true)
    (hpv0 : ss.pvTable0 ss.ply = mpv)
    (hn2 : ss.pvTable0 ss.ply ≠ mpxq)
    (hn3 : ss.pvTable0 ss.ply ≠ mqxp)
    (hn4 : ss.pvTable0 ss.ply ≠ mpromo)
    (hn5 : ss.pvTable0 ss.ply ≠ mk1)
    (hn6 : ss.pvTable0 ss.ply ≠ mk2)
    (hn7 : ss.pvTable0 ss.ply ≠ mquiet)
    (h2cap : getMoveCapture mpxq ≠ 0)
    (h2att : getMovePiece mpxq = (if pos.sideToMove = White then P else p))
    (h2vict : capturedVictim pos (getMoveTarget mpxq) =
      (if pos.sideToMove = White then q else Q))
    (h3cap : getMoveCapture mqxp ≠ 0)
    (h3att : getMovePiece mqxp = (if pos.sideToMove = White then Q else q))
    (h3vict : capturedVictim pos (getMoveTarget mqxp) =
      (if pos.sideToMove = White then p else P))
    (h4cap : getMoveCapture mpromo = 0)
    (h4promo : getPromo mpromo ≠ 0)
    (h5cap : getMoveCapture mk1 = 0) (h5promo : getPromo mk1 = 0)
    (h5k : ss.killers0 ss.ply = mk1)
    (h6cap : getMoveCapture mk2 = 0) (h6promo : getPromo mk2 = 0)
    (h6nk : ss.killers0 ss.ply ≠ mk2) (h6k : ss.killers1 ss.ply = mk2)
    (h7cap : getMoveCapture mquiet = 0) (h7promo : getPromo mquiet = 0)
    (h7nk1 : ss.killers0 ss.ply ≠ mquiet) (h7nk2 : ss.killers1 ss.ply ≠ mquiet)
    (h7hist : ss.history (getMovePiece mquiet) (getMoveTarget mquiet) = 0) :
    (scoreMove pos ss mpv).1 = 20000 ∧
    (scoreMove pos ss mpxq).1 = 10505 ∧
    (scoreMove pos ss mqxp).1 = 10101 ∧
    (scoreMove pos ss mpromo).1 = 10000 ∧
    (scoreMove pos ss mk1).1 = 9000 ∧
    (scoreMove pos ss mk2).1 = 8000 ∧
    (scoreMove pos ss mquiet).1 = 0 ∧
    (scoreMove pos ss mpv).1 > (scoreMove pos ss mpxq).1 ∧
    (scoreMove pos ss mpxq).1 > (scoreMove pos ss mqxp).1 ∧
    (scoreMove pos ss mqxp).1 > (scoreMove pos ss mpromo).1 ∧
    (scoreMove pos ss mpromo).1 > (scoreMove pos ss mk1).1 ∧
    (scoreMove pos ss mk1).1 > (scoreMove pos ss mk2).1 ∧
    (scoreMove pos ss mk2).1 > (scoreMove pos ss mquiet).1 := by
  have e1 : (scoreMove pos ss mpv).1 = 20000 := by
    simp [scoreMove, hpv, hpv0]
  have e2 : (scoreMove pos ss mpxq).1 = 10505 := by
    simp only [scoreMove, hn2, h2cap, ne_eq, not_false_eq_true, and_false, ite_false,
      ite_true, if_false]
    rw [h2att, h2vict, ]
    rcases hside with hs | hs <;> rw [hs] <;> decide
  have e3 : (scoreMove pos ss mqxp).1 = 10101 := by
    simp only [scoreMove, hn3, h3cap, ne_eq, not_false_eq_true, and_false, ite_false,
      ite_true, if_false]
    rw [h3att, h3vict]
    rcases hside with hs | hs <;> rw [hs] <;> decide
  have e4 : (scoreMove pos ss mpromo).1 = 10000 := by
    simp [scoreMove, hn4, h4cap, h4promo, MOVESCORE_PROMO_QUIET]
  have e5 : (scoreMove pos ss mk1).1 = 9000 := by
    simp [scoreMove, hn5, h5cap, h5promo, h5k]
  have e6 : (scoreMove pos ss mk2).1 = 8000 := by
    simp [scoreMove, hn6, h6cap, h6promo, h6nk, h6k]
  have e7 : (scoreMove pos ss mquiet).1 = 0 := by
    simp [scoreMove, hn7, h7cap, h7promo, h7nk1, h7nk2, h7hist]
  refine ⟨e1, e2, e3, e4, e5, e6, e7, ?_, ?_, ?_, ?_, ?_, ?_⟩ <;>
    simp only [e1, e2, e3, e4, e5, e6, e7] <;> decide

/-- Witness for `scoreMove_ordering`: the concrete scenario of
`posScore`/`ssScore` with the seven moves mPV, mPxQ, mQxP, mPromo,
mK1, mK2, mQuiet. -/
theorem scoreMove_ordering_witness :
    ((posScore.sideToMove = White ∨ posScore.sideToMove = Black) ∧
     ssScore.scorePV = true ∧
     ssScore.pvTable0 ssScore.ply = mPV ∧
     ssScore.pvTable0 ssScore.ply ≠ mPxQ ∧
     ssScore.pvTable0 ssScore.ply ≠ mQxP ∧
     ssScore.pvTable0 ssScore.ply ≠ mPromo ∧
     ssScore.pvTable0 ssScore.ply ≠ mK1 ∧
     ssScore.pvTable0 ssScore.ply ≠ mK2 ∧
     ssScore.pvTable0 ssScore.ply ≠ mQuiet ∧
     getMoveCapture mPxQ ≠ 0 ∧
     getMovePiece mPxQ = (if posScore.sideToMove = White then P else p) ∧
     capturedVictim posScore (getMoveTarget mPxQ) =
       (if posScore.sideToMove = White then q else Q) ∧
     getMoveCapture mQxP ≠ 0 ∧
     getMovePiece mQxP = (if posScore.sideToMove = White then Q else q) ∧
     capturedVictim posScore (getMoveTarget mQxP) =
       (if posScore.sideToMove = White then p else P) ∧
     getMoveCapture mPromo = 0 ∧ getPromo mPromo ≠ 0 ∧
     getMoveCapture mK1 = 0 ∧ getPromo mK1 = 0 ∧
     ssScore.killers0 ssScore.ply = mK1 ∧
     getMoveCapture mK2 = 0 ∧ getPromo mK2 = 0 ∧
     ssScore.killers0 ssScore.ply ≠ mK2 ∧ ssScore.killers1 ssScore.ply = mK2 ∧
     getMoveCapture mQuiet = 0 ∧ getPromo mQuiet = 0 ∧
     ssScore.killers0 ssScore.ply ≠ mQuiet ∧ ssScore.killers1 ssScore.ply ≠ mQuiet ∧
     ssScore.history (getMovePiece mQuiet) (getMoveTarget mQuiet) = 0) ∧
    ((scoreMove posScore ssScore mPV).1 = 20000 ∧
     (scoreMove posScore ssScore mPxQ).1 = 10505 ∧
     (scoreMove posScore ssScore mQxP).1 = 10101 ∧
     (scoreMove posScore ssScore mPromo).1 = 10000 ∧
     (scoreMove posScore ssScore mK1).1 = 9000 ∧
     (scoreMove posScore ssScore mK2).1 = 8000 ∧
     (scoreMove posScore ssScore mQuiet).1 = 0 ∧
     (scoreMove posScore ssScore mPV).1 > (scoreMove posScore ssScore mPxQ).1 ∧
     (scoreMove posScore ssScore mPxQ).1 > (scoreMove posScore ssScore mQxP).1 ∧
     (scoreMove posScore ssScore mQxP).1 > (scoreMove posScore ssScore mPromo).1 ∧
     (scoreMove posScore ssScore mPromo).1 > (scoreMove posScore ssScore mK1).1 ∧
     (scoreMove posScore ssScore mK1).1 > (scoreMove posScore ssScore mK2).1 ∧
     (scoreMove posScore ssScore mK2).1 > (scoreMove posScore ssScore mQuiet).1) := by
  constructor
  · decide
  · apply scoreMove_ordering posScore ssScore mPV mPxQ mQxP mPromo mK1 mK2 mQuiet <;>
      decide

end Gargantua
